import Mathlib

/-!
Verification development for the clawnboard VM provisioner and health
monitoring subsystem.  The definitions below are a shallow embedding of the
TypeScript sources: the FlyProvisioner class (fly-provisioner, the second and
authoritative revision in the repository), the HealthChecker class
(packages/vm-provisioner/src/health-checker.ts) and the moltbot API routes
(apps/api/src/routes/moltbots.ts).  Remote I/O is modelled by environment
records supplying the outcome of each remote call, and each operation returns
the list of remote calls it issued together with its result, so that ordering
and compensation behaviour can be stated and proved.
-/

namespace Clawnboard

/-- MoltbotStatus from types.ts: the string union of lifecycle states. -/
inductive MoltbotStatus where
  | created
  | starting
  | started
  | stopping
  | stopped
  | destroying
  | destroyed
deriving DecidableEq, Repr

/-- Rendering of a MoltbotStatus back to the literal string used in the
TypeScript union type. -/
def MoltbotStatus.toStr : MoltbotStatus → String
  | .created => "created"
  | .starting => "starting"
  | .started => "started"
  | .stopping => "stopping"
  | .stopped => "stopped"
  | .destroying => "destroying"
  | .destroyed => "destroyed"

/-- FlyMachine from types.ts (the scalar fields; the nested machine config is
not consulted by any of the operations modelled here). -/
structure FlyMachine where
  id : String
  name : String
  state : String
  region : String
  instance_id : String
  private_ip : String
  created_at : String
  updated_at : String
deriving DecidableEq, Repr

/-- MoltbotInstance from types.ts. -/
structure MoltbotInstance where
  id : String
  name : String
  status : MoltbotStatus
  region : String
  createdAt : String
  hostname : String
  privateIp : Option String
  gatewayToken : Option String := none
deriving DecidableEq, Repr

/-- FlyVolume as consumed by listVolumes (id and name). -/
structure FlyVolume where
  id : String
  name : String
deriving DecidableEq, Repr

/-- FlyVolumeSnapshot as consumed by the snapshot listings: id, creation
timestamp and size in bytes. -/
structure FlyVolumeSnapshot where
  id : String
  created_at : String
  size : Nat
deriving DecidableEq, Repr

/-- The MOLTBOT_APP_PREFIX constant from fly-provisioner. -/
def MOLTBOT_APP_PREFIX : String := "moltbot-"

/-- JS String.prototype.startsWith, embedded over the character lists so that
concrete runs evaluate. -/
def strStartsWith (s pre : String) : Bool :=
  List.isPrefixOf pre.data s.data

/-- JS String.prototype.slice from a character index to the end, embedded
over the character lists. -/
def strDropChars (s : String) (n : Nat) : String :=
  String.mk (s.data.drop n)

/-- Derivation of the Fly app name used by every provisioner method: the
moltbot name gets the prefix unless it already carries it. -/
def appNameOf (moltbotName : String) : String :=
  if strStartsWith moltbotName MOLTBOT_APP_PREFIX then moltbotName
  else MOLTBOT_APP_PREFIX ++ moltbotName

/-- mapFlyState from fly-provisioner: table lookup over the remote state
string, defaulting to stopped for unrecognized values. -/
def mapFlyState (flyState : String) : MoltbotStatus :=
  if flyState = "created" then .created
  else if flyState = "starting" then .starting
  else if flyState = "started" then .started
  else if flyState = "stopping" then .stopping
  else if flyState = "stopped" then .stopped
  else if flyState = "destroying" then .destroying
  else if flyState = "destroyed" then .destroyed
  else .stopped

/-- mapMachineToInstance from fly-provisioner: strips the app prefix to
recover the moltbot name, derives the hostname from the app name and maps the
remote state; an empty private_ip is coerced to null by the JS truthiness
test machine.private_ip or null. -/
def mapMachineToInstance (machine : FlyMachine) (appName : String) : MoltbotInstance :=
  { id := machine.id
    name := if strStartsWith appName MOLTBOT_APP_PREFIX then
        strDropChars appName MOLTBOT_APP_PREFIX.length
      else machine.name
    status := mapFlyState machine.state
    region := machine.region
    createdAt := machine.created_at
    hostname := appName ++ ".fly.dev"
    privateIp := if machine.private_ip = "" then none else some machine.private_ip
    gatewayToken := none }

/-! ## Health checker (packages/vm-provisioner/src/health-checker.ts)

The HealthChecker's per-instance record and the transition performed by
performHealthCheck.  Remote effects (the provisioner lookup and the gateway
liveness probe) are supplied as explicit outcome values; the callback
machinery is modelled by counting how many times notifyUnhealthy,
notifyHealthy and the provisioner restart are invoked by one check (each
notify call runs every registered callback once, with subscriber exceptions
caught individually). -/

/-- Outcome of the fetch against the gateway health endpoint in checkGateway:
a 2xx response with parsed body, a non-2xx status code, an abort by the
timeout controller, or another fetch failure. -/
inductive GatewayProbeOutcome where
  | ok (response : String)
  | httpStatus (code : Nat)
  | aborted
  | failure (msg : String)
deriving DecidableEq, Repr

/-- Result record of checkGateway. -/
structure GatewayCheckResult where
  reachable : Bool
  response : Option String := none
  error : Option String := none
deriving DecidableEq, Repr

/-- HealthCheckResult from health-checker.ts. -/
structure HealthCheckResult where
  healthy : Bool
  machineState : String
  gatewayReachable : Bool
  gatewayResponse : Option String := none
  error : Option String := none
deriving DecidableEq, Repr

/-- Rendering of a Nat status code, used for the Gateway returned N message. -/
def natToStr (n : Nat) : String := toString n

/-- checkGateway from health-checker.ts.  The second component records
whether the fetch against the gateway was actually performed: when the VM has
no private IP the method returns before issuing any request. -/
def checkGateway (vm : MoltbotInstance) (probe : GatewayProbeOutcome) :
    GatewayCheckResult × Bool :=
  match vm.privateIp with
  | none => ({ reachable := false, error := some "No private IP assigned" }, false)
  | some _ =>
    match probe with
    | .ok response => ({ reachable := true, response := some response }, true)
    | .httpStatus code =>
      ({ reachable := false, error := some ("Gateway returned " ++ natToStr code) }, true)
    | .aborted => ({ reachable := false, error := some "Gateway health check timed out" }, true)
    | .failure msg => ({ reachable := false, error := some msg }, true)

/-- Outcome of the provisioner.getMoltbot call made by checkHealth: the call
may throw, return null, or return an instance. -/
def ProvisionerLookup : Type := Except String (Option MoltbotInstance)

/-- checkHealth from health-checker.ts.  The Bool records whether the gateway
liveness probe was attempted: it is false on a thrown lookup, on a missing
VM, and on a VM whose status is not started; the probe value is consulted
only in the started branch. -/
def checkHealth (lookup : ProvisionerLookup) (probe : GatewayProbeOutcome) :
    HealthCheckResult × Bool :=
  match lookup with
  | .error e =>
    ({ healthy := false, machineState := "unknown", gatewayReachable := false,
       error := some e }, false)
  | .ok none =>
    ({ healthy := false, machineState := "not_found", gatewayReachable := false,
       error := some "VM not found" }, false)
  | .ok (some vm) =>
    if vm.status ≠ MoltbotStatus.started then
      ({ healthy := false, machineState := vm.status.toStr, gatewayReachable := false,
         error := some ("VM is in state: " ++ vm.status.toStr) }, false)
    else
      let g := checkGateway vm probe
      ({ healthy := g.1.reachable, machineState := vm.status.toStr,
         gatewayReachable := g.1.reachable, gatewayResponse := g.1.response,
         error := g.1.error }, g.2)

/-- The mutable per-VM counters of a HealthStatus record (health-checker.ts);
the lastCheck timestamp and the details field do not influence the
transition logic and are omitted. -/
structure HCState where
  healthy : Bool
  consecutiveFailures : Nat
  restartAttempts : Nat
deriving DecidableEq, Repr

/-- Configuration fields of HealthChecker consulted by performHealthCheck. -/
structure HCConfig where
  failureThreshold : Nat
  autoRestart : Bool
  maxRestartAttempts : Nat
deriving DecidableEq, Repr

/-- Side effects of one performHealthCheck call: how many times the
unhealthy-callback set, the healthy-callback set and provisioner.restartMoltbot
were invoked. -/
structure HCEvents where
  unhealthyNotifies : Nat := 0
  healthyNotifies : Nat := 0
  restartCalls : Nat := 0
deriving DecidableEq, Repr

/-- Pointwise sum of event counts across consecutive checks. -/
def HCEvents.add (a b : HCEvents) : HCEvents :=
  { unhealthyNotifies := a.unhealthyNotifies + b.unhealthyNotifies
    healthyNotifies := a.healthyNotifies + b.healthyNotifies
    restartCalls := a.restartCalls + b.restartCalls }

/-- attemptRestart from health-checker.ts: a no-op once restartAttempts has
reached maxRestartAttempts, otherwise increments the counter and issues one
provisioner restart (whose own failure is caught and logged). -/
def attemptRestart (cfg : HCConfig) (st : HCState) : HCState × Nat :=
  if st.restartAttempts ≥ cfg.maxRestartAttempts then (st, 0)
  else ({ st with restartAttempts := st.restartAttempts + 1 }, 1)

/-- performHealthCheck from health-checker.ts, as the transition it applies to
the VM's status record once the check result's healthy flag is known.  On a
healthy result the failure and restart counters reset and the
healthy-callback set fires only when the record was previously unhealthy; on
a failing result consecutiveFailures increments, and at or above the
threshold the record is marked unhealthy, the unhealthy-callback set fires,
and auto-restart is attempted when enabled. -/
def performHealthCheck (cfg : HCConfig) (st : HCState) (resultHealthy : Bool) :
    HCState × HCEvents :=
  if resultHealthy then
    ({ healthy := true, consecutiveFailures := 0, restartAttempts := 0 },
     { healthyNotifies := if st.healthy then 0 else 1 })
  else
    let cf := st.consecutiveFailures + 1
    if cf ≥ cfg.failureThreshold then
      let st1 : HCState :=
        { healthy := false, consecutiveFailures := cf, restartAttempts := st.restartAttempts }
      let r := if cfg.autoRestart then attemptRestart cfg st1 else (st1, 0)
      (r.1, { unhealthyNotifies := 1, restartCalls := r.2 })
    else
      ({ st with consecutiveFailures := cf }, {})

/-- Initial status record installed by monitorVM when monitoring starts:
healthy, with both counters at zero. -/
def initialHCState : HCState :=
  { healthy := true, consecutiveFailures := 0, restartAttempts := 0 }

/-- Sequence of scheduled checks: folds performHealthCheck over the list of
per-check health outcomes, accumulating the emitted events. -/
def runChecks (cfg : HCConfig) (st : HCState) : List Bool → HCState × HCEvents
  | [] => (st, {})
  | r :: rs =>
    let step := performHealthCheck cfg st r
    let rest := runChecks cfg step.1 rs
    (rest.1, step.2.add rest.2)

/-! ## waitForState (fly-provisioner)

The polling loop: while the elapsed time is below timeoutMs it fetches the
app's machine list, raises when the machine has disappeared, returns the
mapped instance when the mapped state equals the target, and otherwise sleeps
1000 ms and polls again; past the deadline it raises the timeout error.
Remote calls and sleeps are the only time consumers, and the model counts
time in whole polls: poll number i begins at elapsed time i * 1000 ms.  The
fuel argument only makes the recursion structural; with the fuel supplied by
waitForState the fuel never runs out before the deadline guard fails, so the
fuel-exhausted branch coincides with the guard's timeout. -/

/-- Terminal outcome of waitForState: the mapped instance, the thrown
machine-not-found error, or the thrown timeout error. -/
inductive WaitOutcome where
  | ok (inst : MoltbotInstance)
  | notFound
  | timeout
deriving DecidableEq, Repr

/-- The machines.find over one poll's fetched machine list. -/
def waitPollFind (fetch : Nat → List FlyMachine) (machineId : String) (i : Nat) :
    Option FlyMachine :=
  (fetch i).find? (fun m => m.id == machineId)

/-- Body of the waitForState while loop, fuel-indexed. -/
def waitForStateAux (fetch : Nat → List FlyMachine) (appName machineId : String)
    (targetState : MoltbotStatus) (timeoutMs : Nat) : Nat → Nat → WaitOutcome
  | _, 0 => .timeout
  | i, fuel + 1 =>
    if i * 1000 < timeoutMs then
      match waitPollFind fetch machineId i with
      | none => .notFound
      | some m =>
        if mapFlyState m.state = targetState then .ok (mapMachineToInstance m appName)
        else waitForStateAux fetch appName machineId targetState timeoutMs (i + 1) fuel
    else .timeout

/-- waitForState from fly-provisioner (default timeout 60000 ms at the call
sites that omit it).  fetch i is the machine list returned by the GET
machines call of poll i. -/
def waitForState (fetch : Nat → List FlyMachine) (appName machineId : String)
    (targetState : MoltbotStatus) (timeoutMs : Nat) : WaitOutcome :=
  waitForStateAux fetch appName machineId targetState timeoutMs 0 (timeoutMs / 1000 + 1)

/-! ## Hidden snapshot set (fly-provisioner)

The hidden-snapshot ids are persisted as one comma-joined string under the
hidden_snapshots metadata key.  getHiddenSnapshots reads it back with
split(",").filter(Boolean); hideSnapshot re-reads the set, appends the id if
absent and writes the re-joined string.  The JS split and join are embedded
below over character lists so their round-trip behaviour can be proved. -/

/-- JS String.prototype.split on the comma separator, over characters: the
empty string splits to one empty field, and every comma opens a new field. -/
def jsSplitCommaChars : List Char → List (List Char)
  | [] => [[]]
  | c :: cs =>
    match jsSplitCommaChars cs with
    | [] => if c = ',' then [[], []] else [[c]]
    | w :: ws => if c = ',' then [] :: w :: ws else (c :: w) :: ws

/-- JS Array.prototype.join on the comma separator, over characters. -/
def jsJoinCommaChars : List (List Char) → List Char
  | [] => []
  | [w] => w
  | w :: ws => w ++ ',' :: jsJoinCommaChars ws

/-- String wrapper of the comma split. -/
def splitCommaS (s : String) : List String :=
  (jsSplitCommaChars s.data).map String.mk

/-- String wrapper of the comma join. -/
def joinCommaS (l : List String) : String :=
  String.mk (jsJoinCommaChars (l.map String.data))

/-- Parsing of the hidden_snapshots metadata value as getHiddenSnapshots does:
an absent or empty value (JS falsiness) is the empty list, otherwise
split(",").filter(Boolean) drops the empty fields. -/
def parseHiddenMeta (meta : Option String) : List String :=
  match meta with
  | none => []
  | some s => if s = "" then [] else (splitCommaS s).filter (fun x => x ≠ "")

/-- Remote state that the hidden-snapshot operations touch for one moltbot:
the app's machine list and the value stored under the hidden_snapshots
metadata key of the first machine (none when the key is absent or the
metadata fetch fails, which getMachineMetadata maps to an empty object). -/
structure HiddenMetaState where
  machines : List FlyMachine
  hiddenMeta : Option String
deriving DecidableEq, Repr

/-- getHiddenSnapshots from fly-provisioner: an empty machine list (and any
thrown fetch, absorbed by the catch) yields the empty list, otherwise the
metadata value is parsed. -/
def getHiddenSnapshots (st : HiddenMetaState) : List String :=
  match st.machines with
  | [] => []
  | _ :: _ => parseHiddenMeta st.hiddenMeta

/-- hideSnapshot from fly-provisioner, as a transition on the metadata state.
With no machine it throws; otherwise it reads the current hidden set and,
only when the id is absent, writes the re-joined string back.  The Bool
records whether the metadata write was performed. -/
def hideSnapshot (st : HiddenMetaState) (snapshotId : String) :
    Except String (HiddenMetaState × Bool) :=
  match st.machines with
  | [] => .error "No machine found for moltbot"
  | _ :: _ =>
    let currentHidden := getHiddenSnapshots st
    if snapshotId ∈ currentHidden then .ok (st, false)
    else .ok ({ st with hiddenMeta := some (joinCommaS (currentHidden ++ [snapshotId])) }, true)

/-! ## Snapshot listings (fly-provisioner and routes/moltbots.ts)

A world record supplies the remote reads the listings perform: the GraphQL
app list, each app's machine list and hidden_snapshots metadata value, each
app's volume list and each volume's snapshot list (the two latter as Except,
since listAllSnapshots skips per-app and per-volume fetch failures).  Date
handling (Date.parse for sorting, toLocaleDateString for labels) is supplied
as opaque functions of the timestamp string. -/

/-- Remote reads consumed by the snapshot listings. -/
structure FlyWorld where
  apps : List (String × String)
  machinesOf : String → List FlyMachine
  hiddenMetaOf : String → Option String
  volumesOf : String → Except String (List FlyVolume)
  snapshotsOf : String → String → Except String (List FlyVolumeSnapshot)
  timeOf : String → Int
  dateLabelOf : String → String

/-- listMoltbotApps from fly-provisioner: the GraphQL app nodes filtered to
names carrying the moltbot prefix. -/
def listMoltbotApps (w : FlyWorld) : List (String × String) :=
  w.apps.filter (fun app => strStartsWith app.1 MOLTBOT_APP_PREFIX)

/-- listVolumes from fly-provisioner. -/
def listVolumes (w : FlyWorld) (moltbotName : String) : Except String (List FlyVolume) :=
  w.volumesOf (appNameOf moltbotName)

/-- listVolumeSnapshots from fly-provisioner. -/
def listVolumeSnapshots (w : FlyWorld) (moltbotName volumeId : String) :
    Except String (List FlyVolumeSnapshot) :=
  w.snapshotsOf (appNameOf moltbotName) volumeId

/-- getHiddenSnapshots against the world: the machine list and metadata value
of the moltbot's app, fed to the metadata-state reader. -/
def getHiddenSnapshotsW (w : FlyWorld) (moltbotName : String) : List String :=
  getHiddenSnapshots
    { machines := w.machinesOf (appNameOf moltbotName)
      hiddenMeta := w.hiddenMetaOf (appNameOf moltbotName) }

/-- The record both snapshot listings produce per snapshot (VolumeSnapshot in
the shared types). -/
structure SnapshotInfo where
  id : String
  moltbotName : String
  volumeId : String
  createdAt : String
  sizeGb : Nat
  label : String
deriving DecidableEq, Repr

/-- Math.ceil of size bytes over one GiB, as both listings compute sizeGb. -/
def bytesToGbCeil (size : Nat) : Nat :=
  (size + (1024 * 1024 * 1024 - 1)) / (1024 * 1024 * 1024)

/-- Construction of one listing record from a raw snapshot. -/
def mkSnapshotInfo (w : FlyWorld) (moltbotName volumeId : String)
    (s : FlyVolumeSnapshot) : SnapshotInfo :=
  { id := s.id
    moltbotName := moltbotName
    volumeId := volumeId
    createdAt := s.created_at
    sizeGb := bytesToGbCeil s.size
    label := moltbotName ++ " - " ++ w.dateLabelOf s.created_at }

/-- Insertion step of the newest-first sort. -/
def insertNewest (timeOf : String → Int) (x : SnapshotInfo) :
    List SnapshotInfo → List SnapshotInfo
  | [] => [x]
  | y :: ys =>
    if timeOf x.createdAt ≤ timeOf y.createdAt then y :: insertNewest timeOf x ys
    else x :: y :: ys

/-- The sort both listings apply: by creation date, newest first (the JS
comparator subtracts the parsed times; an insertion sort on the descending
key order embeds Array.prototype.sort for this comparator — the claims below
depend only on which records the sorted output contains). -/
def sortNewestFirst (timeOf : String → Int) (l : List SnapshotInfo) : List SnapshotInfo :=
  l.foldr (insertNewest timeOf) []

/-- listAllSnapshots from fly-provisioner: every moltbot app, every volume,
every snapshot; per-app and per-volume fetch failures are skipped; the result
is sorted newest first.  No hidden-snapshot filtering is performed here. -/
def listAllSnapshots (w : FlyWorld) : List SnapshotInfo :=
  sortNewestFirst w.timeOf <|
    (listMoltbotApps w).flatMap fun app =>
      let moltbotName := strDropChars app.1 MOLTBOT_APP_PREFIX.length
      match listVolumes w moltbotName with
      | .error _ => []
      | .ok volumes =>
        volumes.flatMap fun volume =>
          match listVolumeSnapshots w moltbotName volume.id with
          | .error _ => []
          | .ok snapshots => snapshots.map (mkSnapshotInfo w moltbotName volume.id)

/-- Outcome of the GET snapshots route for one moltbot. -/
inductive RouteSnapshotsResult where
  | ok (data : List SnapshotInfo)
  | error (msg : String)
deriving DecidableEq, Repr

/-- The GET moltbots/:id/snapshots handler from routes/moltbots.ts: volumes
of the moltbot (no volume means empty data), snapshots of the first volume
together with the hidden-id set, hidden ids filtered out, records mapped and
sorted newest first; a thrown fetch is caught into an error response. -/
def routeListSnapshots (w : FlyWorld) (id : String) : RouteSnapshotsResult :=
  match listVolumes w id with
  | .error e => .error e
  | .ok [] => .ok []
  | .ok (volume :: _) =>
    match listVolumeSnapshots w id volume.id with
    | .error e => .error e
    | .ok rawSnapshots =>
      let hiddenIds := getHiddenSnapshotsW w id
      .ok (sortNewestFirst w.timeOf
        ((rawSnapshots.filter (fun s => ¬ hiddenIds.contains s.id)).map
          (mkSnapshotInfo w id volume.id)))

/-! ## createMoltbot and deployFromSnapshot (fly-provisioner)

Each workflow is embedded as a function of an environment record giving the
outcome of every remote call, returning the ordered list of remote calls it
issued together with its result.  The gateway token and the machine config
are built locally between the volume and machine steps and cannot fail.
installSudoAccess catches every ssh failure internally (the final attempt
logs a non-fatal error), so it is modelled as an infallible best-effort call.
The compensating deleteApp of the catch block appears in the trace whenever
the try block failed; its own outcome (the deleteAppR field) is ignored, so
the original error is re-raised no matter how the cleanup fares. -/

/-- One remote interaction issued by the provisioning workflows. -/
inductive RemoteCall where
  | createApp (appName : String)
  | allocateIp (appName : String)
  | createVolume (appName volumeName : String) (sizeGb : Nat) (snapshotId : Option String)
  | extendVolume (appName volumeId : String) (sizeGb : Nat)
  | createMachine (appName : String)
  | setMetadata (appName machineId key value : String)
  | waitPolls (appName machineId : String)
  | installSudo (appName : String)
  | deleteApp (appName : String)
deriving DecidableEq, Repr

/-- MoltbotConfig from types.ts. -/
structure MoltbotConfig where
  name : String
  size : Option String := none
  model : Option String := none
  image : Option String := none
  env : List (String × String) := []
deriving DecidableEq, Repr

/-- Remote-call outcomes for one createMoltbot run, plus the token
crypto.randomUUID produced.  A some value on a void call is the thrown
error; waitR abstracts the whole waitForState poll loop (a timeout, a
machine-not-found and a failed poll all surface as its error). -/
structure CreateEnv where
  createAppR : Option String
  allocateIpR : Option String
  createVolumeR : Except String String
  createMachineR : Except String FlyMachine
  setMetadataR : Option String
  waitR : Except String MoltbotInstance
  deleteAppR : Option String
  gatewayToken : String

/-- createMoltbot from fly-provisioner: app, IP and a fresh 20 GB volume are
created outside any try block; machine creation, the metadata write and the
wait-for-started poll run inside the try whose catch attempts deleteApp
(ignoring its outcome) and rethrows the original error. -/
def createMoltbot (env : CreateEnv) (cfg : MoltbotConfig) :
    List RemoteCall × Except String MoltbotInstance :=
  let appName := MOLTBOT_APP_PREFIX ++ cfg.name
  match env.createAppR with
  | some e => ([.createApp appName], .error e)
  | none =>
  match env.allocateIpR with
  | some e => ([.createApp appName, .allocateIp appName], .error e)
  | none =>
  let pre := [RemoteCall.createApp appName, .allocateIp appName,
    .createVolume appName "openclaw_data" 20 none]
  match env.createVolumeR with
  | .error e => (pre, .error e)
  | .ok _ =>
  match env.createMachineR with
  | .error e => (pre ++ [.createMachine appName, .deleteApp appName], .error e)
  | .ok machine =>
  match env.setMetadataR with
  | some e =>
    (pre ++ [.createMachine appName,
      .setMetadata appName machine.id "gateway_token" env.gatewayToken,
      .deleteApp appName], .error e)
  | none =>
  match env.waitR with
  | .error e =>
    (pre ++ [.createMachine appName,
      .setMetadata appName machine.id "gateway_token" env.gatewayToken,
      .waitPolls appName machine.id, .deleteApp appName], .error e)
  | .ok _ =>
    (pre ++ [.createMachine appName,
      .setMetadata appName machine.id "gateway_token" env.gatewayToken,
      .waitPolls appName machine.id, .installSudo appName],
     .ok { mapMachineToInstance machine appName with gatewayToken := some env.gatewayToken })

/-- The config argument of deployFromSnapshot. -/
structure DeployConfig where
  snapshotId : String
  sourceAppName : String
  newName : String
  size : Option String := none
  model : Option String := none
  env : List (String × String) := []
deriving DecidableEq, Repr

/-- Remote-call outcomes for one deployFromSnapshot run; createVolumeR yields
the forked volume's id, extendR is the PUT extend call. -/
structure DeployEnv where
  createAppR : Option String
  allocateIpR : Option String
  createVolumeR : Except String String
  extendR : Option String
  createMachineR : Except String FlyMachine
  setMetadataR : Option String
  waitR : Except String MoltbotInstance
  deleteAppR : Option String
  gatewayToken : String

/-- deployFromSnapshot from fly-provisioner: app and IP as in create, then
the volume is created from the snapshot at 5 GB (the legacy size the remote
API requires to match the snapshot's origin) and extended to 20 GB, both
outside the try; machine creation, metadata write and wait run inside the
try with the same compensating deleteApp catch as createMoltbot. -/
def deployFromSnapshot (env : DeployEnv) (cfg : DeployConfig) :
    List RemoteCall × Except String MoltbotInstance :=
  let appName := MOLTBOT_APP_PREFIX ++ cfg.newName
  match env.createAppR with
  | some e => ([.createApp appName], .error e)
  | none =>
  match env.allocateIpR with
  | some e => ([.createApp appName, .allocateIp appName], .error e)
  | none =>
  let pre3 := [RemoteCall.createApp appName, .allocateIp appName,
    .createVolume appName "openclaw_data" 5 (some cfg.snapshotId)]
  match env.createVolumeR with
  | .error e => (pre3, .error e)
  | .ok volumeId =>
  match env.extendR with
  | some e => (pre3 ++ [.extendVolume appName volumeId 20], .error e)
  | none =>
  let pre4 := pre3 ++ [RemoteCall.extendVolume appName volumeId 20]
  match env.createMachineR with
  | .error e => (pre4 ++ [.createMachine appName, .deleteApp appName], .error e)
  | .ok machine =>
  match env.setMetadataR with
  | some e =>
    (pre4 ++ [.createMachine appName,
      .setMetadata appName machine.id "gateway_token" env.gatewayToken,
      .deleteApp appName], .error e)
  | none =>
  match env.waitR with
  | .error e =>
    (pre4 ++ [.createMachine appName,
      .setMetadata appName machine.id "gateway_token" env.gatewayToken,
      .waitPolls appName machine.id, .deleteApp appName], .error e)
  | .ok _ =>
    (pre4 ++ [.createMachine appName,
      .setMetadata appName machine.id "gateway_token" env.gatewayToken,
      .waitPolls appName machine.id, .installSudo appName],
     .ok { mapMachineToInstance machine appName with gatewayToken := some env.gatewayToken })

/-! ## The create route (routes/moltbots.ts) -/

/-- Membership of a character in the zod name character class [a-z0-9-]. -/
def isSlugChar (c : Char) : Bool :=
  (97 ≤ c.toNat && c.toNat ≤ 122) || c.isDigit || c == '-'

/-- The createMoltbotSchema name checks: min length 1, max length 50, and
every character drawn from lowercase letters, digits and hyphens. -/
def validMoltbotName (s : String) : Bool :=
  1 ≤ s.length && s.length ≤ 50 && s.data.all isSlugChar

/-- Outcome of the POST moltbots route. -/
inductive RouteCreateResult where
  | validationError
  | missingApiKey
  | created (m : MoltbotInstance)
  | flyError (msg : String)
deriving Repr

/-- The POST moltbots handler from routes/moltbots.ts: the zod schema parse
rejects a malformed name before anything else runs; an empty AI-provider env
is rejected next; only then is the provisioner's createMoltbot invoked with
the caller's name and the provider env. -/
def routeCreateMoltbot (env : CreateEnv) (aiEnv : List (String × String))
    (name : String) : List RemoteCall × RouteCreateResult :=
  if ¬ validMoltbotName name then ([], .validationError)
  else if aiEnv.isEmpty then ([], .missingApiKey)
  else
    match createMoltbot env { name := name, env := aiEnv } with
    | (trace, .ok m) => (trace, .created m)
    | (trace, .error e) => (trace, .flyError e)

/-! ## Concrete instances used by witnesses and counterexamples -/

/-- A started machine as the remote API reports one. -/
def sampleMachine : FlyMachine :=
  { id := "m1", name := "alpha", state := "started", region := "iad",
    instance_id := "inst1", private_ip := "10.0.0.5",
    created_at := "2024-01-15T10:00:00Z", updated_at := "2024-01-15T10:00:00Z" }

/-- A createMoltbot environment in which every remote call succeeds. -/
def envAllOk : CreateEnv :=
  { createAppR := none, allocateIpR := none, createVolumeR := .ok "vol1",
    createMachineR := .ok sampleMachine, setMetadataR := none,
    waitR := .ok (mapMachineToInstance sampleMachine "moltbot-alpha"),
    deleteAppR := none, gatewayToken := "tok-1" }

/-- A createMoltbot environment whose IP allocation (step 2) throws. -/
def envIpFails : CreateEnv :=
  { envAllOk with allocateIpR := some "allocate ip failed" }

/-- A createMoltbot environment whose machine creation (step 6) throws. -/
def envMachineFails : CreateEnv :=
  { envAllOk with createMachineR := .error "machine create failed" }

/-- A deployFromSnapshot environment in which every remote call succeeds. -/
def denvAllOk : DeployEnv :=
  { createAppR := none, allocateIpR := none, createVolumeR := .ok "vol2",
    extendR := none, createMachineR := .ok sampleMachine, setMetadataR := none,
    waitR := .ok (mapMachineToInstance sampleMachine "moltbot-beta"),
    deleteAppR := none, gatewayToken := "tok-2" }

/-- The single remote snapshot of the sample world. -/
def sampleSnapshot : FlyVolumeSnapshot :=
  { id := "snap1", created_at := "2024-01-15T10:00:00Z", size := 1073741824 }

/-- A world with one moltbot app whose single volume has one snapshot, and
whose hidden_snapshots metadata already names that snapshot. -/
def sampleWorld : FlyWorld :=
  { apps := [("moltbot-alpha", "deployed")]
    machinesOf := fun _ => [sampleMachine]
    hiddenMetaOf := fun _ => some "snap1"
    volumesOf := fun _ => .ok [{ id := "vol1", name := "openclaw_data" }]
    snapshotsOf := fun _ _ => .ok [sampleSnapshot]
    timeOf := fun _ => 0
    dateLabelOf := fun _ => "Jan 15, 2024" }

/-- Health-check configuration with failureThreshold 2 and the remaining
defaults (autoRestart on, maxRestartAttempts 3). -/
def hcCfgThreshold2 : HCConfig :=
  { failureThreshold := 2, autoRestart := true, maxRestartAttempts := 3 }

/-- The all-default health-check configuration: failureThreshold 3,
autoRestart on, maxRestartAttempts 3. -/
def hcCfgDefault : HCConfig :=
  { failureThreshold := 3, autoRestart := true, maxRestartAttempts := 3 }

/-! ## Lemmas on the comma split and join -/

theorem jsSplitCommaChars_ne_nil (l : List Char) : jsSplitCommaChars l ≠ [] := by
  cases l with
  | nil => simp [jsSplitCommaChars]
  | cons c cs =>
    simp only [jsSplitCommaChars]
    rcases hsplit : jsSplitCommaChars cs with _ | ⟨w, ws⟩ <;>
      by_cases hc : c = ',' <;> simp [hc]

theorem jsSplitCommaChars_append (w rest r : List Char) (rs : List (List Char))
    (hw : ∀ c ∈ w, c ≠ ',') (h : jsSplitCommaChars rest = r :: rs) :
    jsSplitCommaChars (w ++ rest) = (w ++ r) :: rs := by
  induction w with
  | nil => simpa using h
  | cons c w ih =>
    have hc : c ≠ ',' := hw c (by simp)
    have ih2 := ih (fun d hd => hw d (by simp [hd]))
    simp only [List.cons_append, jsSplitCommaChars, List.append_eq]
    rw [ih2]
    simp [hc]

theorem jsSplit_jsJoin (ws : List (List Char)) (hne : ws ≠ [])
    (hw : ∀ w ∈ ws, ∀ c ∈ w, c ≠ ',') :
    jsSplitCommaChars (jsJoinCommaChars ws) = ws := by
  induction ws with
  | nil => cases hne rfl
  | cons w ws ih =>
    cases ws with
    | nil =>
      have h0 : jsSplitCommaChars ([] : List Char) = [] :: [] := by
        simp [jsSplitCommaChars]
      have := jsSplitCommaChars_append w [] [] [] (hw w (by simp)) h0
      simpa [jsJoinCommaChars] using this
    | cons w2 ws2 =>
      have ihr := ih (by simp) (fun u hu c hc => hw u (by simp [hu]) c hc)
      have hsplit : jsSplitCommaChars (',' :: jsJoinCommaChars (w2 :: ws2)) =
          [] :: w2 :: ws2 := by
        simp only [jsSplitCommaChars, ihr]
        simp
      have := jsSplitCommaChars_append w (',' :: jsJoinCommaChars (w2 :: ws2))
        [] (w2 :: ws2) (hw w (by simp)) hsplit
      simpa [jsJoinCommaChars] using this

theorem no_comma_of_mem_jsSplit (l w : List Char)
    (hw : w ∈ jsSplitCommaChars l) : ∀ c ∈ w, c ≠ ',' := by
  induction l generalizing w with
  | nil =>
    simp [jsSplitCommaChars] at hw
    subst hw; simp
  | cons c cs ih =>
    simp only [jsSplitCommaChars] at hw
    cases h : jsSplitCommaChars cs with
    | nil => exact absurd h (jsSplitCommaChars_ne_nil cs)
    | cons w0 ws0 =>
      rw [h] at hw
      by_cases hc : c = ','
      · simp [hc] at hw
        rcases hw with hw | hw | hw
        · subst hw; simp
        · subst hw
          exact ih w (by rw [h]; exact List.mem_cons_self w ws0)
        · exact ih w (by rw [h]; exact List.mem_cons_of_mem w0 hw)
      · simp [hc] at hw
        rcases hw with hw | hw
        · subst hw
          intro d hd
          rcases List.mem_cons.mp hd with hd | hd
          · subst hd; exact hc
          · exact ih w0 (by rw [h]; exact List.mem_cons_self w0 ws0) d hd
        · exact ih w (by rw [h]; exact List.mem_cons_of_mem w0 hw)

theorem jsJoinCommaChars_ne_nil (ws : List (List Char)) (w : List Char)
    (hw : w ∈ ws) (hne : w ≠ []) : jsJoinCommaChars ws ≠ [] := by
  cases ws with
  | nil => simp at hw
  | cons w1 ws1 =>
    cases ws1 with
    | nil =>
      simp at hw
      subst hw
      simpa [jsJoinCommaChars] using hne
    | cons w2 ws2 =>
      simp [jsJoinCommaChars]

theorem string_mk_data (s : String) : String.mk s.data = s := rfl

theorem string_eq_empty_iff (s : String) : s = "" ↔ s.data = [] := by
  constructor
  · intro h; subst h; rfl
  · intro h; cases s; simp at h; subst h; rfl

theorem mem_parseHiddenMeta (m : Option String) (x : String)
    (hx : x ∈ parseHiddenMeta m) : (∀ c ∈ x.data, c ≠ ',') ∧ x ≠ "" := by
  cases m with
  | none => simp [parseHiddenMeta] at hx
  | some s =>
    by_cases hs : s = ""
    · simp [parseHiddenMeta, hs] at hx
    · rw [parseHiddenMeta, if_neg hs] at hx
      obtain ⟨hmem, hne⟩ := List.mem_filter.mp hx
      refine ⟨?_, by simpa using hne⟩
      simp only [splitCommaS, List.mem_map] at hmem
      obtain ⟨w, hw, rfl⟩ := hmem
      intro c hc
      exact no_comma_of_mem_jsSplit s.data w hw c hc

theorem parseHiddenMeta_join (l : List String) (hne : l ≠ [])
    (hcf : ∀ x ∈ l, (∀ c ∈ x.data, c ≠ ',') ∧ x ≠ "") :
    parseHiddenMeta (some (joinCommaS l)) = l := by
  obtain ⟨x0, hx0⟩ := List.exists_mem_of_ne_nil l hne
  have hjoin_ne : joinCommaS l ≠ "" := by
    rw [Ne, string_eq_empty_iff]
    show jsJoinCommaChars (l.map String.data) ≠ []
    refine jsJoinCommaChars_ne_nil _ x0.data (List.mem_map_of_mem _ hx0) ?_
    intro hdata
    exact (hcf x0 hx0).2 ((string_eq_empty_iff x0).mpr hdata)
  have hsplit : splitCommaS (joinCommaS l) = l := by
    show (jsSplitCommaChars (String.mk (jsJoinCommaChars (l.map String.data))).data).map
      String.mk = l
    rw [show (String.mk (jsJoinCommaChars (l.map String.data))).data =
      jsJoinCommaChars (l.map String.data) from rfl]
    rw [jsSplit_jsJoin (l.map String.data) (by simpa using hne) ?hcomma]
    case hcomma =>
      intro w hw c hc
      obtain ⟨x, hx, rfl⟩ := List.mem_map.mp hw
      exact (hcf x hx).1 c hc
    rw [List.map_map]
    have hcomp : (String.mk ∘ String.data) = id := funext string_mk_data
    rw [hcomp, List.map_id]
  rw [parseHiddenMeta, if_neg hjoin_ne, hsplit]
  exact List.filter_eq_self.mpr (fun x hx => by simpa using (hcf x hx).2)

/-- Claim C8 — hideSnapshot is idempotent: for a moltbot with an existing
machine, a first hide returns some state and a second hide of the same
snapshot id returns that state unchanged with no metadata write; after the
first hide the id is in the hidden set read back by getHiddenSnapshots.  The
snapshot id is assumed nonempty and comma-free, as the comma-joined metadata
encoding presumes. -/
theorem hideSnapshot_idempotent (st : HiddenMetaState) (snapshotId : String)
    (hm : st.machines ≠ []) (hid1 : snapshotId ≠ "")
    (hid2 : ∀ c ∈ snapshotId.data, c ≠ ',') :
    ∃ st1 wrote1, hideSnapshot st snapshotId = .ok (st1, wrote1) ∧
      hideSnapshot st1 snapshotId = .ok (st1, false) ∧
      snapshotId ∈ getHiddenSnapshots st1 := by
  obtain ⟨m0, ms, hms⟩ : ∃ m0 ms, st.machines = m0 :: ms := by
    cases h : st.machines with
    | nil => exact absurd h hm
    | cons a b => exact ⟨a, b, rfl⟩
  by_cases hmem : snapshotId ∈ getHiddenSnapshots st
  · refine ⟨st, false, ?_, ?_, ?_⟩
    · rw [hideSnapshot, hms]
      simp [hmem]
    · rw [hideSnapshot, hms]
      simp [hmem]
    · exact hmem
  · set st1 : HiddenMetaState :=
      { st with hiddenMeta := some (joinCommaS (getHiddenSnapshots st ++ [snapshotId])) }
      with hst1
    have hhid1 : getHiddenSnapshots st1 = getHiddenSnapshots st ++ [snapshotId] := by
      rw [hst1]
      show getHiddenSnapshots
        { machines := st.machines
          hiddenMeta := some (joinCommaS (getHiddenSnapshots st ++ [snapshotId])) } = _
      rw [getHiddenSnapshots, hms]
      refine parseHiddenMeta_join _ (by simp) ?_
      intro x hx
      rcases List.mem_append.mp hx with hx | hx
      · rw [getHiddenSnapshots, hms] at hx
        exact mem_parseHiddenMeta _ _ hx
      · simp at hx
        subst hx
        exact ⟨hid2, hid1⟩
    have hmem1 : snapshotId ∈ getHiddenSnapshots st1 := by
      rw [hhid1]; simp
    refine ⟨st1, true, ?_, ?_, hmem1⟩
    · rw [hideSnapshot, hms]
      simp only [hmem, if_false, if_neg hmem]
      rw [hst1, hms]
    · rw [hideSnapshot]
      have : st1.machines = m0 :: ms := by rw [hst1]; exact hms
      rw [this]
      simp [hmem1]

/-- Claim C8 witness: hiding snap1 on a machine-backed state whose hidden
set is already a,b, twice, at the concrete input. -/
theorem hideSnapshot_idempotent_witness :
  ({ machines := [sampleMachine], hiddenMeta := some "a,b" } : HiddenMetaState).machines ≠ [] ∧
    ("snap1" : String) ≠ "" ∧
    ∃ st1 wrote1,
      hideSnapshot { machines := [sampleMachine], hiddenMeta := some "a,b" } "snap1" =
        .ok (st1, wrote1) ∧
      hideSnapshot st1 "snap1" = .ok (st1, false) ∧
      "snap1" ∈ getHiddenSnapshots st1 :=
  ⟨by decide, by decide,
    hideSnapshot_idempotent { machines := [sampleMachine], hiddenMeta := some "a,b" }
      "snap1" (by decide) (by decide) (by decide)⟩

/-! ## waitForState theorems -/

theorem waitForStateAux_spec (fetch : Nat → List FlyMachine) (appName machineId : String)
    (target : MoltbotStatus) (timeoutMs : Nat)
    (hpresent : ∀ i, i * 1000 < timeoutMs → (waitPollFind fetch machineId i).isSome) :
    ∀ fuel i0, timeoutMs / 1000 + 1 ≤ fuel + i0 →
    (∃ inst, waitForStateAux fetch appName machineId target timeoutMs i0 fuel = .ok inst ∧
       inst.status = target ∧
       ∃ i, i0 ≤ i ∧ i * 1000 < timeoutMs ∧
         ∃ m, waitPollFind fetch machineId i = some m ∧ mapFlyState m.state = target) ∨
    (waitForStateAux fetch appName machineId target timeoutMs i0 fuel = .timeout ∧
       ∀ i, i0 ≤ i → i * 1000 < timeoutMs →
         ∀ m, waitPollFind fetch machineId i = some m → mapFlyState m.state ≠ target) := by
  intro fuel
  induction fuel with
  | zero =>
    intro i0 hfuel
    right
    refine ⟨rfl, ?_⟩
    intro i hi0 hi _ _
    omega
  | succ fuel ih =>
    intro i0 hfuel
    by_cases hguard : i0 * 1000 < timeoutMs
    · obtain ⟨m, hm⟩ := Option.isSome_iff_exists.mp (hpresent i0 hguard)
      by_cases htarget : mapFlyState m.state = target
      · left
        refine ⟨mapMachineToInstance m appName, ?_, ?_, i0, le_refl i0, hguard, m, hm, htarget⟩
        · rw [waitForStateAux, if_pos hguard, hm]
          simp [htarget]
        · simp [mapMachineToInstance, htarget]
      · have hstep : waitForStateAux fetch appName machineId target timeoutMs i0 (fuel + 1) =
            waitForStateAux fetch appName machineId target timeoutMs (i0 + 1) fuel := by
          rw [waitForStateAux, if_pos hguard, hm]
          simp [htarget]
        rcases ih (i0 + 1) (by omega) with ⟨inst, heq, hstat, i, hi0, hi, hwit⟩ | ⟨heq, hall⟩
        · exact Or.inl ⟨inst, by rw [hstep, heq], hstat, i, by omega, hi, hwit⟩
        · right
          refine ⟨by rw [hstep, heq], ?_⟩
          intro i hi0 hi m2 hm2
          rcases Nat.eq_or_lt_of_le hi0 with hi0 | hi0
          · subst hi0
            rw [hm] at hm2
            cases hm2
            exact htarget
          · exact hall i (by omega) hi m2 hm2
    · right
      refine ⟨?_, ?_⟩
      · rw [waitForStateAux, if_neg hguard]
      · intro i hi0 hi _ _
        have : i0 * 1000 ≤ i * 1000 := Nat.mul_le_mul_right 1000 hi0
        omega

/-- Claim C9 — waitForState is a deadline-bounded poll: on any run in whose
deadline window the machine is always found, the loop either returns an
instance whose status equals the target state, the target having been
observed at some poll strictly inside the timeout window, or terminates with
the distinct timeout outcome, in which case no poll inside the window ever
observed the target state; it cannot return success without such an
observation, and the fuel bound caps the loop at the deadline. -/
theorem waitForState_deadline_spec (fetch : Nat → List FlyMachine)
    (appName machineId : String) (target : MoltbotStatus) (timeoutMs : Nat)
    (hpresent : ∀ i, i * 1000 < timeoutMs → (waitPollFind fetch machineId i).isSome) :
    (∃ inst, waitForState fetch appName machineId target timeoutMs = .ok inst ∧
       inst.status = target ∧
       ∃ i, i * 1000 < timeoutMs ∧
         ∃ m, waitPollFind fetch machineId i = some m ∧ mapFlyState m.state = target) ∨
    (waitForState fetch appName machineId target timeoutMs = .timeout ∧
       ∀ i, i * 1000 < timeoutMs →
         ∀ m, waitPollFind fetch machineId i = some m → mapFlyState m.state ≠ target) := by
  have h := waitForStateAux_spec fetch appName machineId target timeoutMs hpresent
    (timeoutMs / 1000 + 1) 0 (by omega)
  rcases h with ⟨inst, heq, hstat, i, _, hi, hwit⟩ | ⟨heq, hall⟩
  · exact Or.inl ⟨inst, heq, hstat, i, hi, hwit⟩
  · exact Or.inr ⟨heq, fun i hi m hm => hall i (Nat.zero_le i) hi m hm⟩

/-- Claim C9 witness: a machine that reports started on every poll, with a
1000 ms deadline, at the concrete input. -/
theorem waitForState_deadline_spec_witness :
  (∀ i, i * 1000 < 1000 → (waitPollFind (fun _ => [sampleMachine]) "m1" i).isSome) ∧
    ((∃ inst, waitForState (fun _ => [sampleMachine]) "moltbot-alpha" "m1" .started 1000 =
        .ok inst ∧ inst.status = .started ∧
        ∃ i, i * 1000 < 1000 ∧ ∃ m, waitPollFind (fun _ => [sampleMachine]) "m1" i = some m ∧
          mapFlyState m.state = .started) ∨
      (waitForState (fun _ => [sampleMachine]) "moltbot-alpha" "m1" .started 1000 = .timeout ∧
        ∀ i, i * 1000 < 1000 → ∀ m, waitPollFind (fun _ => [sampleMachine]) "m1" i = some m →
          mapFlyState m.state ≠ .started)) := by
  have hpresent : ∀ i, i * 1000 < 1000 →
      (waitPollFind (fun _ => [sampleMachine]) "m1" i).isSome := by
    intro i hi
    simp [waitPollFind, sampleMachine]
  exact ⟨hpresent,
    waitForState_deadline_spec (fun _ => [sampleMachine]) "moltbot-alpha" "m1"
      .started 1000 hpresent⟩

/-! ## Health-checker theorems -/

/-- Claim C4 — with failureThreshold 2, from the freshly monitored healthy
state: one failing check fires no callback; two consecutive failing checks
set healthy to false and fire the unhealthy-callback set exactly once; the
next successful check resets consecutiveFailures and restartAttempts to 0
and fires the healthy-callback set exactly once. -/
theorem healthChecker_threshold_two_scenario :
    (runChecks hcCfgThreshold2 initialHCState [false]).2.unhealthyNotifies = 0 ∧
    (runChecks hcCfgThreshold2 initialHCState [false, false]).1.healthy = false ∧
    (runChecks hcCfgThreshold2 initialHCState [false, false]).2.unhealthyNotifies = 1 ∧
    (runChecks hcCfgThreshold2 initialHCState [false, false]).2.healthyNotifies = 0 ∧
    (runChecks hcCfgThreshold2
        (runChecks hcCfgThreshold2 initialHCState [false, false]).1
        [true]).1.consecutiveFailures = 0 ∧
    (runChecks hcCfgThreshold2
        (runChecks hcCfgThreshold2 initialHCState [false, false]).1
        [true]).1.restartAttempts = 0 ∧
    (runChecks hcCfgThreshold2
        (runChecks hcCfgThreshold2 initialHCState [false, false]).1
        [true]).2.healthyNotifies = 1 ∧
    (runChecks hcCfgThreshold2
        (runChecks hcCfgThreshold2 initialHCState [false, false]).1
        [true]).2.unhealthyNotifies = 0 := by
  decide

/-- One failing check relates the restart counters: the restart calls it
emits equal the counter's increase, and the counter never passes
maxRestartAttempts once below it. -/
theorem performHealthCheck_false_restart (cfg : HCConfig) (st : HCState) :
    (performHealthCheck cfg st false).2.restartCalls + st.restartAttempts =
        (performHealthCheck cfg st false).1.restartAttempts ∧
      (st.restartAttempts ≤ cfg.maxRestartAttempts →
        (performHealthCheck cfg st false).1.restartAttempts ≤ cfg.maxRestartAttempts) := by
  simp only [performHealthCheck, attemptRestart, Bool.false_eq_true, if_false]
  split
  · split
    · split <;> simp <;> omega
    · simp
  · simp

/-- Over any run of failing checks, total restart calls equal the final
counter minus the initial one, and the counter stays within the bound. -/
theorem runChecks_fail_restart (cfg : HCConfig) (n : Nat) (st : HCState)
    (h : st.restartAttempts ≤ cfg.maxRestartAttempts) :
    (runChecks cfg st (List.replicate n false)).2.restartCalls + st.restartAttempts =
        (runChecks cfg st (List.replicate n false)).1.restartAttempts ∧
      (runChecks cfg st (List.replicate n false)).1.restartAttempts ≤
        cfg.maxRestartAttempts := by
  induction n generalizing st with
  | zero => simp [runChecks, h]
  | succ n ih =>
    rw [List.replicate_succ]
    obtain ⟨hstep, hbound⟩ := performHealthCheck_false_restart cfg st
    obtain ⟨ih1, ih2⟩ := ih (performHealthCheck cfg st false).1 (hbound h)
    simp only [runChecks, HCEvents.add]
    exact ⟨by omega, ih2⟩

/-- Claim C5 — with maxRestartAttempts 3 (the default configuration) and a
persistently failing instance, the restart is invoked at most 3 times no
matter how many failing checks occur, and restartAttempts never exceeds 3. -/
theorem healthChecker_restart_bounded (n : Nat) :
    (runChecks hcCfgDefault initialHCState (List.replicate n false)).2.restartCalls ≤ 3 ∧
      (runChecks hcCfgDefault initialHCState (List.replicate n false)).1.restartAttempts ≤ 3 := by
  obtain ⟨h1, h2⟩ := runChecks_fail_restart hcCfgDefault n initialHCState (by decide)
  have hmax : hcCfgDefault.maxRestartAttempts = 3 := rfl
  have hinit : initialHCState.restartAttempts = 0 := rfl
  rw [hmax] at h2
  rw [hinit] at h1
  omega

/-- Claim C10 — every failing check whose incremented failure count is at or
above the threshold fires the unhealthy-callback set (once per such check),
not only the check that first crosses into the unhealthy state: the already
unhealthy states are covered because the statement places no constraint on
the record's healthy flag or on how large consecutiveFailures already is. -/
theorem performHealthCheck_renotifies (cfg : HCConfig) (st : HCState)
    (h : cfg.failureThreshold ≤ st.consecutiveFailures + 1) :
    (performHealthCheck cfg st false).2.unhealthyNotifies = 1 := by
  simp only [performHealthCheck, Bool.false_eq_true, if_false]
  rw [if_pos h]

/-- Claim C10 witness: a record already unhealthy for long (five consecutive
failures, restart budget exhausted) still fires the unhealthy callbacks on
the next failing check, at the concrete input. -/
theorem performHealthCheck_renotifies_witness :
    hcCfgDefault.failureThreshold ≤ 5 + 1 ∧
      (performHealthCheck hcCfgDefault
        { healthy := false, consecutiveFailures := 5, restartAttempts := 3 }
        false).2.unhealthyNotifies = 1 :=
  ⟨by decide,
    performHealthCheck_renotifies hcCfgDefault
      { healthy := false, consecutiveFailures := 5, restartAttempts := 3 } (by decide)⟩

/-! ## checkHealth theorems -/

/-- Claim C6 — checkHealth gates the liveness probe on the remote status:
a not-found lookup yields the not-found result with no probe attempted (the
result is the same constant for every probe outcome and the attempted flag
is false); an instance whose status is not started yields an unhealthy
result carrying that status as machineState, again with no probe attempted;
and whenever the probe was attempted the lookup returned an instance whose
status is started. -/
theorem checkHealth_probe_gating :
    (∀ probe, checkHealth (Except.ok none) probe =
      ({ healthy := false, machineState := "not_found", gatewayReachable := false,
         gatewayResponse := none, error := some "VM not found" }, false)) ∧
    (∀ probe vm, vm.status ≠ MoltbotStatus.started →
      checkHealth (Except.ok (some vm)) probe =
        ({ healthy := false, machineState := vm.status.toStr, gatewayReachable := false,
           gatewayResponse := none,
           error := some ("VM is in state: " ++ vm.status.toStr) }, false)) ∧
    (∀ lookup probe, (checkHealth lookup probe).2 = true →
      ∃ vm, lookup = Except.ok (some vm) ∧ vm.status = MoltbotStatus.started) := by
  refine ⟨fun probe => rfl, ?_, ?_⟩
  · intro probe vm hvm
    rw [checkHealth, if_pos hvm]
  · intro lookup probe hattempt
    match lookup with
    | .error e => simp [checkHealth] at hattempt
    | .ok none => simp [checkHealth] at hattempt
    | .ok (some vm) =>
      refine ⟨vm, rfl, ?_⟩
      by_contra hvm
      rw [checkHealth, if_pos hvm] at hattempt
      simp at hattempt

/-- Claim C6 witness: a stopped instance and a missing instance, at concrete
inputs; the conclusion is read off the theorem. -/
theorem checkHealth_probe_gating_witness :
    (mapMachineToInstance { sampleMachine with state := "stopped" } "moltbot-alpha").status ≠
        MoltbotStatus.started ∧
      checkHealth (Except.ok none) (.ok "body") =
        ({ healthy := false, machineState := "not_found", gatewayReachable := false,
           gatewayResponse := none, error := some "VM not found" }, false) ∧
      checkHealth
          (Except.ok (some (mapMachineToInstance { sampleMachine with state := "stopped" }
            "moltbot-alpha"))) (.ok "body") =
        ({ healthy := false, machineState := "stopped", gatewayReachable := false,
           gatewayResponse := none, error := some ("VM is in state: " ++ "stopped") }, false) :=
  ⟨by decide, checkHealth_probe_gating.1 (.ok "body"),
    checkHealth_probe_gating.2.1 (.ok "body")
      (mapMachineToInstance { sampleMachine with state := "stopped" } "moltbot-alpha")
      (by decide)⟩

/-! ## createMoltbot theorems -/

/-- Claim C1 counterexample — the claim that a failure of any of steps 1 to 6
triggers the compensating deleteApp is false at a concrete input: when step 2
(the IP allocation) throws, createMoltbot re-raises that error without ever
calling deleteApp, leaving the freshly created app behind. -/
theorem createMoltbot_cleanup_gap :
    (createMoltbot envIpFails { name := "alpha" }).2 = .error "allocate ip failed" ∧
      RemoteCall.deleteApp "moltbot-alpha" ∉ (createMoltbot envIpFails { name := "alpha" }).1 :=
  ⟨rfl, by decide⟩

/-- Claim C1 (amended) — when steps 1 to 3 (app, IP, volume) succeed and the
run nevertheless fails, the failure came from the try block (machine
creation, the metadata write or the wait), the compensating deleteApp is in
the issued-call trace, and the result is the original error whatever the
cleanup's own outcome is (the deleteAppR field never influences the
result). -/
theorem createMoltbot_cleanup_spec (env : CreateEnv) (cfg : MoltbotConfig) (e : String)
    (h1 : env.createAppR = none) (h2 : env.allocateIpR = none)
    (h3 : ∃ v, env.createVolumeR = .ok v)
    (herr : (createMoltbot env cfg).2 = .error e) :
    RemoteCall.deleteApp (MOLTBOT_APP_PREFIX ++ cfg.name) ∈ (createMoltbot env cfg).1 ∧
      ∀ d, (createMoltbot { env with deleteAppR := d } cfg).2 = .error e := by
  obtain ⟨v, h3⟩ := h3
  rcases hmach : env.createMachineR with emach | machine
  · rw [createMoltbot] at herr
    simp only [h1, h2, h3, hmach] at herr
    refine ⟨?_, ?_⟩
    · rw [createMoltbot]
      simp [h1, h2, h3, hmach]
    · intro d
      rw [createMoltbot]
      simp only [h1, h2, h3, hmach]
      simpa using herr
  · rcases hmeta : env.setMetadataR with _ | emeta
    · rcases hwait : env.waitR with ewait | inst
      · rw [createMoltbot] at herr
        simp only [h1, h2, h3, hmach, hmeta, hwait] at herr
        refine ⟨?_, ?_⟩
        · rw [createMoltbot]
          simp [h1, h2, h3, hmach, hmeta, hwait]
        · intro d
          rw [createMoltbot]
          simp only [h1, h2, h3, hmach, hmeta, hwait]
          simpa using herr
      · rw [createMoltbot] at herr
        simp [h1, h2, h3, hmach, hmeta, hwait] at herr
    · rw [createMoltbot] at herr
      simp only [h1, h2, h3, hmach, hmeta] at herr
      refine ⟨?_, ?_⟩
      · rw [createMoltbot]
        simp [h1, h2, h3, hmach, hmeta]
      · intro d
        rw [createMoltbot]
        simp only [h1, h2, h3, hmach, hmeta]
        simpa using herr

/-- Claim C1 witness: a run whose machine creation fails, at the concrete
input; the cleanup call is shown present by the theorem. -/
theorem createMoltbot_cleanup_spec_witness :
    (createMoltbot envMachineFails { name := "alpha" }).2 = .error "machine create failed" ∧
      RemoteCall.deleteApp (MOLTBOT_APP_PREFIX ++ "alpha") ∈
        (createMoltbot envMachineFails { name := "alpha" }).1 :=
  ⟨rfl,
    (createMoltbot_cleanup_spec envMachineFails { name := "alpha" } "machine create failed"
      rfl rfl ⟨"vol1", rfl⟩ rfl).1⟩

/-! ## Name validation theorems -/

/-- Claim C3 counterexample — the Provisioner's createMoltbot performs no
name validation: with the malformed name Bad_Name (rejected by the slug
pattern) it still opens with the remote createApp call and, in an
all-success environment, completes without any validation failure. -/
theorem createMoltbot_skips_validation :
    validMoltbotName "Bad_Name" = false ∧
      (createMoltbot envAllOk { name := "Bad_Name" }).1.head? =
        some (RemoteCall.createApp "moltbot-Bad_Name") ∧
      (createMoltbot envAllOk { name := "Bad_Name" }).2.isOk = true := by
  decide

/-- Claim C3 (amended) — the rejection of malformed names happens in the API
route, not in the Provisioner: for every name failing the createMoltbotSchema
slug checks, the POST moltbots handler answers with the validation failure
and issues no remote call, the provisioner never being invoked. -/
theorem routeCreateMoltbot_rejects_invalid_name (env : CreateEnv)
    (aiEnv : List (String × String)) (name : String)
    (h : validMoltbotName name = false) :
    routeCreateMoltbot env aiEnv name = ([], .validationError) := by
  rw [routeCreateMoltbot, if_pos (by simp [h])]

/-- Claim C3 witness: the malformed name Bad_Name against the all-success
environment and a nonempty provider env, at the concrete input. -/
theorem routeCreateMoltbot_rejects_invalid_name_witness :
    validMoltbotName "Bad_Name" = false ∧
      routeCreateMoltbot envAllOk [("ANTHROPIC_API_KEY", "k")] "Bad_Name" =
        ([], .validationError) :=
  ⟨by decide,
    routeCreateMoltbot_rejects_invalid_name envAllOk [("ANTHROPIC_API_KEY", "k")]
      "Bad_Name" (by decide)⟩

/-! ## deployFromSnapshot theorems -/

/-- Claim C7 — whenever deployFromSnapshot reaches the machine-create call,
its issued-call trace contains, in this order, the create-volume call at the
snapshot's original 5 GB size carrying the snapshot id, then the
extend-volume call to the 20 GB default, then the machine creation. -/
theorem deployFromSnapshot_volume_then_extend (env : DeployEnv) (cfg : DeployConfig)
    (h : RemoteCall.createMachine (MOLTBOT_APP_PREFIX ++ cfg.newName) ∈
      (deployFromSnapshot env cfg).1) :
    ∃ volumeId, env.createVolumeR = .ok volumeId ∧
      [RemoteCall.createVolume (MOLTBOT_APP_PREFIX ++ cfg.newName) "openclaw_data" 5
          (some cfg.snapshotId),
        RemoteCall.extendVolume (MOLTBOT_APP_PREFIX ++ cfg.newName) volumeId 20,
        RemoteCall.createMachine (MOLTBOT_APP_PREFIX ++ cfg.newName)].Sublist
        (deployFromSnapshot env cfg).1 := by
  rcases happ : env.createAppR with _ | eapp
  case' some => rw [deployFromSnapshot] at h; simp [happ] at h
  rcases hip : env.allocateIpR with _ | eip
  case' some => rw [deployFromSnapshot] at h; simp [happ, hip] at h
  rcases hvol : env.createVolumeR with evol | volumeId
  case' error => rw [deployFromSnapshot] at h; simp [happ, hip, hvol] at h
  rcases hext : env.extendR with _ | eext
  case' some => rw [deployFromSnapshot] at h; simp [happ, hip, hvol, hext] at h
  refine ⟨volumeId, rfl, ?_⟩
  rw [deployFromSnapshot]
  simp only [happ, hip, hvol, hext]
  rcases env.createMachineR with emach | machine
  · simp only [List.cons_append, List.nil_append]
    exact .cons _ (.cons _ (.cons₂ _ (.cons₂ _ (.cons₂ _ (List.nil_sublist _)))))
  · rcases env.setMetadataR with _ | emeta
    · rcases env.waitR with ewait | inst <;>
      · simp only [List.cons_append, List.nil_append]
        exact .cons _ (.cons _ (.cons₂ _ (.cons₂ _ (.cons₂ _ (List.nil_sublist _)))))
    · simp only [List.cons_append, List.nil_append]
      exact .cons _ (.cons _ (.cons₂ _ (.cons₂ _ (.cons₂ _ (List.nil_sublist _)))))

/-- Claim C7 witness: an all-success deploy of snap1 into beta, at the
concrete input. -/
theorem deployFromSnapshot_volume_then_extend_witness :
    RemoteCall.createMachine (MOLTBOT_APP_PREFIX ++ "beta") ∈
        (deployFromSnapshot denvAllOk
          { snapshotId := "snap1", sourceAppName := "moltbot-alpha", newName := "beta" }).1 ∧
      ∃ volumeId, denvAllOk.createVolumeR = .ok volumeId ∧
        [RemoteCall.createVolume (MOLTBOT_APP_PREFIX ++ "beta") "openclaw_data" 5 (some "snap1"),
          RemoteCall.extendVolume (MOLTBOT_APP_PREFIX ++ "beta") volumeId 20,
          RemoteCall.createMachine (MOLTBOT_APP_PREFIX ++ "beta")].Sublist
          (deployFromSnapshot denvAllOk
            { snapshotId := "snap1", sourceAppName := "moltbot-alpha", newName := "beta" }).1 :=
  ⟨by decide,
    deployFromSnapshot_volume_then_extend denvAllOk
      { snapshotId := "snap1", sourceAppName := "moltbot-alpha", newName := "beta" }
      (by decide)⟩

/-! ## Hidden snapshots versus the aggregated listing -/

/-- Claim C2 — at a concrete world in which snap1 is hidden for the only
moltbot, the per-moltbot route listing filters it out, but the aggregated
listAllSnapshots still reports it: the hidden id appears in the aggregated
output even though it is in the hidden set, contradicting the claim that
hidden ids never appear in the listAllSnapshots output (the route-level
listing half of the claim does hold). -/
theorem listAllSnapshots_shows_hidden :
    "snap1" ∈ getHiddenSnapshotsW sampleWorld "alpha" ∧
      "snap1" ∈ (listAllSnapshots sampleWorld).map SnapshotInfo.id ∧
      routeListSnapshots sampleWorld "alpha" = .ok [] := by
  decide

end Clawnboard
